import Mathlib

/-!
# Verification of `MockTransaction` (ts-mock-firebase)

Shallow embedding of `src/firestore/MockTransaction.ts`.

The transaction object owns two JavaScript objects keyed by document path
(`transactionData`, `transactionOperation`) and a boolean `modified` flag.
JavaScript objects with non-numeric string keys preserve insertion order and
update a key in place on reassignment; we model them as association lists
(`JsMap`) with a `setKey` that overwrites in place and appends fresh keys.

Field values inside a document are opaque to the transaction logic (they are
only copied and shallow-merged), so we model them as integers; a document's
data is an association list of field name to value.  `Option DocumentData`
models a possibly-`undefined` document value; note that an *empty* object
`{}` is `some []`, which is truthy in JavaScript, while `undefined` (`none`)
is falsy — the truthiness tests in the source are translated with `Option`
`isSome` / `bind` accordingly.

Methods mutating `this` are embedded in state-passing style: each method
takes the receiver state and returns the updated state (the source's
`return this` fluent chaining is the returned state).  A method that can
throw returns the updated state paired with an `Except` — the state
component is the state of the receiver after the call, whether or not an
exception propagated, matching JavaScript mutation-then-throw semantics.
-/

namespace TsMockFirebase

/-- Field values are opaque to the transaction core; modelled as integers. -/
abbrev FieldValue := Int

/-- Data of a document (`DocumentData`): a JS object of fields, as an insertion-ordered
association list of field name to value. -/
abbrev DocumentData := List (String × FieldValue)

/-- Change kinds (`DocumentChangeType`) from `@firebase/firestore-types`. -/
inductive DocumentChangeType where
  | added
  | modified
  | removed
deriving DecidableEq, Repr

/-- Errors thrown synchronously by the transaction core:
`MockFirebaseValidationError` and `NotImplementedYet`, each carrying its
message string from the source. -/
inductive MockError where
  | validation (msg : String)
  | notImplementedYet (msg : String)
deriving DecidableEq, Repr

/-- Options for `set` (`SetOptions`): the source only inspects `options && options.merge`. -/
structure SetOptions where
  merge : Bool
deriving DecidableEq, Repr

/-- JS-object maps keyed by strings: association lists in insertion order. -/
abbrev JsMap (α : Type) := List (String × α)

/-- Lookup of `m[k]`: `some v` when the key is present, `none` when absent
(JS objects hold at most one binding per key; the first wins). -/
def lookupKey {α : Type} : JsMap α → String → Option α
  | [], _ => none
  | kv :: rest, k => if kv.1 = k then some kv.2 else lookupKey rest k

/-- Key-membership test `k in m`. -/
def hasKey {α : Type} : JsMap α → String → Bool
  | [], _ => false
  | kv :: rest, k => kv.1 = k || hasKey rest k

/-- Assignment of `m[k] = v`: overwrite in place when the key is present
(preserving insertion order), append otherwise. -/
def setKey {α : Type} (m : JsMap α) (k : String) (v : α) : JsMap α :=
  if hasKey m k then
    m.map (fun kv => if kv.1 = k then (k, v) else kv)
  else
    m ++ [(k, v)]

/-- Shallow object spread `{ ...a, ...b }`: keys of `a` keep their position
(with `b`'s value when `b` also has the key); keys only in `b` are appended
in `b`'s order. -/
def objSpread (a b : DocumentData) : DocumentData :=
  (a.map (fun kv =>
    match lookupKey b kv.1 with
    | some v => (kv.1, v)
    | none => kv)) ++
  b.filter (fun kv => (lookupKey a kv.1).isNone)

/-- A document snapshot as carried inside a change descriptor
(`MockQueryDocumentSnapshot`): its reference path and data. -/
structure MockQueryDocumentSnapshot where
  refPath : String
  data : Option DocumentData
deriving DecidableEq, Repr

/-- Change descriptor (`MockDocumentChange`) returned by a document's
`commitChange`: the resulting snapshot, effective change kind, and the
document's old/new ordering indices within its collection. -/
structure MockDocumentChange where
  type : DocumentChangeType
  doc : MockQueryDocumentSnapshot
  oldIndex : Int
  newIndex : Int
deriving DecidableEq, Repr

/-- The slice of `MockDocumentReference` the transaction core reads:
its `path` and its current (pre-transaction) `data`, which may be
`undefined`. -/
structure MockDocumentReference where
  path : String
  data : Option DocumentData
deriving DecidableEq, Repr

/-- Modelled from the spec: `MockDocumentReference.updateInTransaction`
(`stageAsUpdate(baseData, partialPayload, extraPairs) → mergedData`) is not
under `src/`; per §4.2/§4.3 it produces the base data with the partial
payload shallow-merged over it, and that merge result becomes the staged
value.  The extra field/value pairs are unused in the object-payload call
form. -/
def MockDocumentReference.updateInTransaction (_ref : MockDocumentReference)
    (base : DocumentData) (payload : DocumentData)
    (_moreFieldsAndValues : List FieldValue) : DocumentData :=
  objSpread base payload

/-- Modelled from the spec: `MockDocumentReference.setInTransaction`
(`stageAsSet(baseData, newPayload, options) → resultData`) is not under
`src/`; per §4.2 the staged value becomes the independent copy of the new
payload that the caller passes as `baseData`. -/
def MockDocumentReference.setInTransaction (_ref : MockDocumentReference)
    (docData : DocumentData) (_payload : DocumentData)
    (_options : Option SetOptions) : DocumentData :=
  docData

/-- The transaction's own state: the two staging maps and the `modified`
flag. -/
structure MockTransaction where
  transactionData : JsMap (Option DocumentData)
  transactionOperation : JsMap DocumentChangeType
  modified : Bool
deriving DecidableEq, Repr

namespace MockTransaction

/-- A freshly constructed transaction: empty maps, `modified = false`. -/
def init : MockTransaction :=
  { transactionData := [], transactionOperation := [], modified := false }

/-- Reads `this.transactionData[path]` as a document value: `undefined` both when
the key is absent and when it was explicitly set to `undefined` (after a
`delete`). -/
def stagedValue (t : MockTransaction) (path : String) : Option DocumentData :=
  (lookupKey t.transactionData path).bind id

/-- Embeds `get`: throws `MockFirebaseValidationError` when `modified` is set,
otherwise returns `documentRef.data`.  The body assigns to no field, so the
returned state is the receiver unchanged. -/
def get (t : MockTransaction) (documentRef : MockDocumentReference) :
    MockTransaction × Except MockError (Option DocumentData) :=
  if t.modified then
    (t, .error (.validation
      "Read operations can only be done before write operations."))
  else
    (t, .ok documentRef.data)

/-- Embeds `set`: sets `modified`; computes `docData` as the staged value if truthy,
else (`documentRef.data && {...documentRef.data}`) a copy of the stored data;
classifies `changeType` from `docData`'s truthiness; then stages either the
merge result via `updateInTransaction` (when `options.merge`) or a copy of
the payload via `setInTransaction`, and records `changeType` for the path. -/
def set (t : MockTransaction) (documentRef : MockDocumentReference)
    (data : DocumentData) (options : Option SetOptions) : MockTransaction :=
  let path := documentRef.path
  let docData : Option DocumentData :=
    match t.stagedValue path with
    | some d => some d
    | none => documentRef.data
  let changeType : DocumentChangeType :=
    if docData.isSome then .modified else .added
  let staged : DocumentData :=
    if (options.map SetOptions.merge).getD false then
      documentRef.updateInTransaction (objSpread (docData.getD []) data) data []
    else
      documentRef.setInTransaction data data options
  { transactionData := setKey t.transactionData path (some staged)
    transactionOperation := setKey t.transactionOperation path changeType
    modified := true }

/-- The first data argument of `update`: either an object payload or the
unsupported field-path/value form (`typeof dataOrField === 'object'` being
the branch condition in the source). -/
inductive UpdateArg where
  | obj (data : DocumentData)
  | fieldPath (field : String)
deriving DecidableEq, Repr

/-- Embeds `update`: sets `modified` first; for an object payload, computes the
base as the staged value if truthy else `{...documentRef.data}` (spreading
`undefined` yields `{}`), stages `updateInTransaction` of base and payload,
and forces the operation kind to `modified`; for the field-path form, throws
`NotImplementedYet` after `modified` was already set. -/
def update (t : MockTransaction) (documentRef : MockDocumentReference)
    (dataOrField : UpdateArg) (moreFieldsAndValues : List FieldValue) :
    MockTransaction × Except MockError Unit :=
  let t1 : MockTransaction := { t with modified := true }
  match dataOrField with
  | .obj payload =>
    let path := documentRef.path
    let data : DocumentData :=
      match t1.stagedValue path with
      | some d => d
      | none => documentRef.data.getD []
    (({ t1 with
        transactionData := setKey t1.transactionData path
          (some (documentRef.updateInTransaction data payload
            moreFieldsAndValues))
        transactionOperation :=
          setKey t1.transactionOperation path .modified } :
        MockTransaction),
      .ok ())
  | .fieldPath _ =>
    (t1, .error (.notImplementedYet "MockTransaction.get"))

/-- Embeds `delete`: sets `modified`, stages `undefined` for the path and operation
kind `removed`, returning the transaction. -/
def delete (t : MockTransaction) (documentRef : MockDocumentReference) :
    MockTransaction :=
  let path := documentRef.path
  { transactionData := setKey t.transactionData path none
    transactionOperation := setKey t.transactionOperation path .removed
    modified := true }

end MockTransaction

/-- Computes `path.substr(0, path.lastIndexOf('/'))`: everything before the last
slash; when there is no slash, `lastIndexOf` is `-1` and `substr(0, -1)`
yields the empty string. -/
def collectionPathOf (path : String) : String :=
  match (path.toList.reverse.findIdx? (fun c => c = '/')) with
  | none => ""
  | some j => String.mk (path.toList.take (path.toList.length - 1 - j))

/-- The observable notifications fired by `commit`'s second phase:
`fireDocumentChangeEvent(type, oldIndex, fromCache)` on a document
reference, and `fireBatchDocumentChange(changes)` on a collection. -/
inductive CommitEvent where
  | docChange (refPath : String) (type : DocumentChangeType)
      (oldIndex : Int) (fromCache : Bool)
  | batchChange (collectionPath : String) (changes : List MockDocumentChange)
deriving DecidableEq, Repr

/-- The outcome of `commit`: the notifications fired in order, how many times
`rollback` ran, and the re-raised error, if any. -/
structure CommitResult (E : Type) where
  events : List CommitEvent
  rollbackCount : Nat
  error : Option E
deriving Repr

/-- The environment a `commit` runs against: `this.firestore.doc(path)`
followed by `doc.commitChange(operation, stagedValue)`, which may throw an
arbitrary error `E`. -/
abbrev CommitEnv (E : Type) :=
  String → DocumentChangeType → Option DocumentData →
    Except E MockDocumentChange

namespace MockTransaction

/-- The first `commit` loop: iterate `transactionOperation` in insertion
order, commit each staged change, and group the resulting descriptors by
collection path (the string before the final slash), preserving encounter
order per collection.  Stops at the first error. -/
def commitCollect {E : Type} (env : CommitEnv E)
    (td : JsMap (Option DocumentData)) :
    List (String × DocumentChangeType) → JsMap (List MockDocumentChange) →
    Except E (JsMap (List MockDocumentChange))
  | [], acc => .ok acc
  | (path, operation) :: rest, acc =>
    match env path operation ((lookupKey td path).bind id) with
    | .error e => .error e
    | .ok documentChange =>
      let collectionPath := collectionPathOf path
      let changes := (lookupKey acc collectionPath).getD []
      commitCollect env td rest
        (setKey acc collectionPath (changes ++ [documentChange]))

/-- The second `commit` loop: for each collection in insertion order, fire a
per-document change event for each descriptor in order, then one batched
collection notification with the full sequence. -/
def commitFire (collectionChanges : JsMap (List MockDocumentChange)) :
    List CommitEvent :=
  collectionChanges.flatMap (fun kv =>
    (kv.2.map (fun ch =>
      CommitEvent.docChange ch.doc.refPath ch.type ch.oldIndex false)) ++
    [CommitEvent.batchChange kv.1 kv.2])

/-- Embeds `commit`: run both loops inside a `try`; on any error, call `rollback`
once and re-throw the same error (no notification has fired yet, since the
grouping loop completes before any event fires). -/
def commit {E : Type} (t : MockTransaction) (env : CommitEnv E) :
    CommitResult E :=
  match commitCollect env t.transactionData t.transactionOperation [] with
  | .ok collectionChanges =>
    { events := commitFire collectionChanges, rollbackCount := 0,
      error := none }
  | .error e =>
    { events := [], rollbackCount := 1, error := some e }

end MockTransaction


/-! ## Association-list map lemmas -/

/-- Mapping the in-place overwrite of key `k` over a map does not change the
lookup of any other key `q`. -/
theorem lookupKey_map_overwrite_ne {α : Type} (k q : String) (v : α)
    (hq : q ≠ k) : ∀ m : JsMap α,
    lookupKey (m.map (fun kv => if kv.1 = k then (k, v) else kv)) q =
      lookupKey m q := by
  intro m
  induction m with
  | nil => rfl
  | cons kv rest ih =>
    by_cases hk : kv.1 = k
    · have h1 : ¬((k : String) = q) := fun h => hq h.symm
      have h2 : ¬(kv.1 = q) := by rw [hk]; exact h1
      rw [List.map_cons]
      show lookupKey ((if kv.1 = k then (k, v) else kv) :: _) q = _
      rw [if_pos hk]
      show (if (k, v).1 = q then some (k, v).2 else _) =
        (if kv.1 = q then some kv.2 else _)
      rw [if_neg h1, if_neg h2]
      exact ih
    · rw [List.map_cons]
      show lookupKey ((if kv.1 = k then (k, v) else kv) :: _) q = _
      rw [if_neg hk]
      show (if kv.1 = q then some kv.2 else _) =
        (if kv.1 = q then some kv.2 else _)
      by_cases hv : kv.1 = q
      · rw [if_pos hv, if_pos hv]
      · rw [if_neg hv, if_neg hv]
        exact ih

/-- When some entry of `m` has key `k`, mapping the in-place overwrite makes
the lookup of `k` yield the new value. -/
theorem lookupKey_map_overwrite_self {α : Type} (k : String) (v : α) :
    ∀ m : JsMap α, hasKey m k = true →
    lookupKey (m.map (fun kv => if kv.1 = k then (k, v) else kv)) k =
      some v := by
  intro m
  induction m with
  | nil => intro h; exact absurd h (by simp [hasKey])
  | cons kv rest ih =>
    intro h
    by_cases hk : kv.1 = k
    · rw [List.map_cons]
      show lookupKey ((if kv.1 = k then (k, v) else kv) :: _) k = some v
      rw [if_pos hk]
      show (if (k, v).1 = k then some (k, v).2 else _) = some v
      rw [if_pos rfl]
    · have hrest : hasKey rest k = true := by
        simpa [hasKey, hk] using h
      rw [List.map_cons]
      show lookupKey ((if kv.1 = k then (k, v) else kv) :: _) k = some v
      rw [if_neg hk]
      show (if kv.1 = k then some kv.2 else _) = some v
      rw [if_neg hk]
      exact ih hrest

/-- Appending a fresh binding does not change the lookup of another key. -/
theorem lookupKey_append_ne {α : Type} (k q : String) (v : α) (hq : q ≠ k) :
    ∀ m : JsMap α, lookupKey (m ++ [(k, v)]) q = lookupKey m q := by
  intro m
  induction m with
  | nil =>
    have h1 : ¬((k : String) = q) := fun h => hq h.symm
    show (if (k, v).1 = q then some (k, v).2 else lookupKey [] q) = none
    rw [if_neg h1]
    rfl
  | cons kv rest ih =>
    show (if kv.1 = q then some kv.2 else _) =
      (if kv.1 = q then some kv.2 else _)
    by_cases hv : kv.1 = q
    · rw [if_pos hv, if_pos hv]
    · rw [if_neg hv, if_neg hv]
      exact ih

/-- When no entry of `m` has key `k`, appending `(k, v)` makes the lookup of
`k` yield `v`. -/
theorem lookupKey_append_self {α : Type} (k : String) (v : α) :
    ∀ m : JsMap α, hasKey m k = false →
    lookupKey (m ++ [(k, v)]) k = some v := by
  intro m
  induction m with
  | nil =>
    intro _
    show (if (k, v).1 = k then some (k, v).2 else lookupKey [] k) = some v
    rw [if_pos rfl]
  | cons kv rest ih =>
    intro h
    have hk : ¬(kv.1 = k) := by
      intro hc
      simp [hasKey, hc] at h
    have hrest : hasKey rest k = false := by
      simpa [hasKey, hk] using h
    show (if kv.1 = k then some kv.2 else _) = some v
    rw [if_neg hk]
    exact ih hrest

/-- Characterizes `setKey` through `lookupKey`: assignment updates the
assigned key and leaves every other key unchanged. -/
theorem lookupKey_setKey {α : Type} (m : JsMap α) (k : String) (v : α)
    (q : String) :
    lookupKey (setKey m k v) q = if q = k then some v else lookupKey m q := by
  by_cases hq : q = k
  · subst hq
    by_cases h : hasKey m q = true
    · rw [setKey, if_pos h, if_pos rfl]
      exact lookupKey_map_overwrite_self q v m h
    · have h' : hasKey m q = false := by simpa using h
      rw [setKey, h', if_pos rfl]
      show lookupKey (m ++ [(q, v)]) q = some v
      exact lookupKey_append_self q v m h'
  · by_cases h : hasKey m k = true
    · rw [setKey, if_pos h, if_neg hq]
      exact lookupKey_map_overwrite_ne k q v hq m
    · have h' : hasKey m k = false := by simpa using h
      rw [setKey, h', if_neg hq]
      show lookupKey (m ++ [(k, v)]) q = lookupKey m q
      exact lookupKey_append_ne k q v hq m

/-- The keys of a JS map, in order. -/
def mapKeys {α : Type} (m : JsMap α) : List String := m.map Prod.fst

/-- Key membership agrees with membership in the key list. -/
theorem hasKey_iff_mem {α : Type} (k : String) :
    ∀ m : JsMap α, hasKey m k = true ↔ k ∈ mapKeys m := by
  intro m
  induction m with
  | nil => simp [hasKey, mapKeys]
  | cons kv rest ih =>
    simp only [hasKey, mapKeys, List.map_cons, List.mem_cons,
      Bool.or_eq_true, decide_eq_true_eq]
    rw [ih]
    constructor
    · rintro (h | h)
      · exact Or.inl h.symm
      · exact Or.inr h
    · rintro (h | h)
      · exact Or.inl h.symm
      · exact Or.inr h

/-- Overwriting an existing key leaves the key list unchanged. -/
theorem mapKeys_setKey_mem {α : Type} (m : JsMap α) (k : String) (v : α)
    (h : hasKey m k = true) : mapKeys (setKey m k v) = mapKeys m := by
  rw [setKey, if_pos h, mapKeys, List.map_map]
  apply List.map_congr_left
  intro kv _
  by_cases hk : kv.1 = k
  · simp [hk]
  · simp [hk]

/-- Assigning a fresh key appends it to the key list. -/
theorem mapKeys_setKey_notMem {α : Type} (m : JsMap α) (k : String) (v : α)
    (h : hasKey m k = false) : mapKeys (setKey m k v) = mapKeys m ++ [k] := by
  rw [setKey, h]
  simp [mapKeys]

/-- After an assignment to `k`, the key list holds exactly one copy of `k`,
provided the keys were previously duplicate-free. -/
theorem count_setKey_self {α : Type} (m : JsMap α) (k : String) (v : α)
    (hnd : (mapKeys m).Nodup) : (mapKeys (setKey m k v)).count k = 1 := by
  by_cases h : hasKey m k = true
  · rw [mapKeys_setKey_mem m k v h]
    exact List.count_eq_one_of_mem hnd ((hasKey_iff_mem k m).mp h)
  · have h' : hasKey m k = false := by simpa using h
    rw [mapKeys_setKey_notMem m k v h']
    have hnm : k ∉ mapKeys m := fun hc =>
      h ((hasKey_iff_mem k m).mpr hc)
    rw [List.count_append]
    rw [List.count_eq_zero.mpr hnm]
    simp

/-- Assignment preserves duplicate-freeness of the key list. -/
theorem nodup_setKey {α : Type} (m : JsMap α) (k : String) (v : α)
    (hnd : (mapKeys m).Nodup) : (mapKeys (setKey m k v)).Nodup := by
  by_cases h : hasKey m k = true
  · rw [mapKeys_setKey_mem m k v h]
    exact hnd
  · have h' : hasKey m k = false := by simpa using h
    rw [mapKeys_setKey_notMem m k v h']
    have hnm : k ∉ mapKeys m := fun hc =>
      h ((hasKey_iff_mem k m).mpr hc)
    simp [List.nodup_append, hnd, hnm]

/-- A `set` staged onto a path that already has a truthy staged value always
records operation kind `modified` (the classification reads the staged
value first). -/
theorem set_opkind_modified_of_staged (t : MockTransaction)
    (ref : MockDocumentReference) (d : DocumentData) (o : Option SetOptions)
    (v : DocumentData) (hv : t.stagedValue ref.path = some v) :
    lookupKey (t.set ref d o).transactionOperation ref.path =
      some DocumentChangeType.modified := by
  simp [MockTransaction.set, hv, lookupKey_setKey]

/-! ## Claim theorems -/

/-- C5: for every transaction and path `p`, `delete(p)` after any prior
staged write to `p` unconditionally replaces the staged entry for `p` with
an absent value (`undefined`), sets the staged operation kind for `p` to
`removed`, and returns the transaction (the returned state, with `modified`
set).  Stated for an arbitrary prior transaction state, so it covers any
prior staged write. -/
theorem delete_dominance (t : MockTransaction)
    (documentRef : MockDocumentReference) :
    lookupKey (t.delete documentRef).transactionData documentRef.path =
      some none ∧
    lookupKey (t.delete documentRef).transactionOperation documentRef.path =
      some DocumentChangeType.removed ∧
    (t.delete documentRef).modified = true := by
  refine ⟨?_, ?_, rfl⟩
  · show lookupKey (setKey t.transactionData documentRef.path none)
      documentRef.path = some none
    rw [lookupKey_setKey, if_pos rfl]
  · show lookupKey
      (setKey t.transactionOperation documentRef.path .removed)
      documentRef.path = some DocumentChangeType.removed
    rw [lookupKey_setKey, if_pos rfl]

/-- C7: calling `update` with the field-path/value argument form throws
`NotImplementedYet` synchronously and stages nothing: both staging maps of
the resulting state are unchanged. -/
theorem update_fieldpath_not_implemented (t : MockTransaction)
    (documentRef : MockDocumentReference) (field : String)
    (mv : List FieldValue) :
    (t.update documentRef (.fieldPath field) mv).2 =
      .error (.notImplementedYet "MockTransaction.get") ∧
    (t.update documentRef (.fieldPath field) mv).1.transactionData =
      t.transactionData ∧
    (t.update documentRef (.fieldPath field) mv).1.transactionOperation =
      t.transactionOperation :=
  ⟨rfl, rfl, rfl⟩

/-- C9: `update` with the unsupported field-path form sets `modified` before
throwing, so although the staging maps are unchanged, every subsequent `get`
on the resulting state fails with the validation error. -/
theorem update_fieldpath_sets_modified (t : MockTransaction)
    (documentRef ref2 : MockDocumentReference) (field : String)
    (mv : List FieldValue) :
    (t.update documentRef (.fieldPath field) mv).1.modified = true ∧
    (t.update documentRef (.fieldPath field) mv).1.transactionData =
      t.transactionData ∧
    (t.update documentRef (.fieldPath field) mv).1.transactionOperation =
      t.transactionOperation ∧
    ((t.update documentRef (.fieldPath field) mv).1.get ref2).2 =
      .error (.validation
        "Read operations can only be done before write operations.") :=
  ⟨rfl, rfl, rfl, rfl⟩

/-- C2: once any of `set`, `update` or `delete` has been called on a
transaction, a subsequent `get` fails with the validation error (each write
leaves `modified = true`, and `get` throws exactly when `modified` holds);
if no write has been staged (`modified = false`), `get` succeeds and returns
the document handle's current data. -/
theorem get_fails_after_write (t : MockTransaction)
    (ref ref2 : MockDocumentReference) (d : DocumentData)
    (o : Option SetOptions) (arg : MockTransaction.UpdateArg)
    (mv : List FieldValue) :
    ((t.set ref d o).get ref2).2 =
      .error (.validation
        "Read operations can only be done before write operations.") ∧
    (((t.update ref arg mv).1).get ref2).2 =
      .error (.validation
        "Read operations can only be done before write operations.") ∧
    ((t.delete ref).get ref2).2 =
      .error (.validation
        "Read operations can only be done before write operations.") ∧
    (t.modified = false → t.get ref2 = (t, .ok ref2.data)) := by
  refine ⟨rfl, ?_, rfl, ?_⟩
  · cases arg <;> rfl
  · intro h
    simp [MockTransaction.get, h]

/-- Witness for C2 at concrete inputs. -/
theorem get_fails_after_write_witness :
    ((MockTransaction.init.set ⟨"a/x", none⟩ [] none).get
        ⟨"a/x", none⟩).2 =
      .error (.validation
        "Read operations can only be done before write operations.") ∧
    MockTransaction.init.get ⟨"a/x", none⟩ =
      (MockTransaction.init, .ok none) :=
  ⟨(get_fails_after_write MockTransaction.init ⟨"a/x", none⟩ ⟨"a/x", none⟩
      [] none (.fieldPath "f") []).1,
    (get_fails_after_write MockTransaction.init ⟨"a/x", none⟩ ⟨"a/x", none⟩
      [] none (.fieldPath "f") []).2.2.2 rfl⟩

/-- C8: on a transaction with no staged write (`modified = false`), `get`
leaves the whole transaction state unchanged and returns the document
handle's current data directly — the staging maps are never consulted, so
staged-but-uncommitted data is not reflected. -/
theorem get_frame_no_write (t : MockTransaction)
    (ref : MockDocumentReference) (h : t.modified = false) :
    (t.get ref).1.transactionData = t.transactionData ∧
    (t.get ref).1.transactionOperation = t.transactionOperation ∧
    (t.get ref).1.modified = t.modified ∧
    (t.get ref).2 = .ok ref.data := by
  simp [MockTransaction.get, h]

/-- Witness for C8: a transaction that has staged data for the path (with
`modified = false`) still reads the store's data, not the staged value. -/
theorem get_frame_no_write_witness :
    ((⟨[("a/x", some [("k", 1)])], [("a/x", .added)], false⟩ :
        MockTransaction).get ⟨"a/x", some [("k", 0)]⟩).2 =
      .ok (some [("k", 0)]) :=
  (get_frame_no_write
    ⟨[("a/x", some [("k", 1)])], [("a/x", .added)], false⟩
    ⟨"a/x", some [("k", 0)]⟩ rfl).2.2.2

/-- C10: after `delete(p)` staged an absent value for `p`, a subsequent
`set(p, data)` does not treat the staged deletion as current state: the
staged `undefined` is falsy, so `set` falls back to the document handle's
stored data to classify the operation — `modified` when the store document
has data, `added` otherwise. -/
theorem set_after_delete_opkind (t : MockTransaction)
    (ref : MockDocumentReference) (d : DocumentData)
    (o : Option SetOptions) :
    lookupKey ((t.delete ref).set ref d o).transactionOperation ref.path =
      some (if ref.data.isSome then DocumentChangeType.modified
        else DocumentChangeType.added) := by
  have hstaged : (t.delete ref).stagedValue ref.path = none := by
    simp [MockTransaction.delete, MockTransaction.stagedValue,
      lookupKey_setKey]
  simp only [MockTransaction.set, hstaged]
  rw [lookupKey_setKey, if_pos rfl]

/-- C3 counterexample: with no pre-existing data for path `c/e` (nothing
staged, store data `undefined`), staging `set` twice leaves operation kind
`modified`, not the `added` that the pre-first-set state dictates — the kind
is re-derived from the staged result of the first `set`. -/
theorem set_set_opkind_counterexample :
    MockTransaction.init.stagedValue "c/e" = none ∧
    (⟨"c/e", none⟩ : MockDocumentReference).data = none ∧
    lookupKey (MockTransaction.init.set ⟨"c/e", none⟩ [("x", 1)]
        none).transactionOperation "c/e" = some DocumentChangeType.added ∧
    lookupKey ((MockTransaction.init.set ⟨"c/e", none⟩ [("x", 1)] none).set
        ⟨"c/e", none⟩ [("y", 2)] none).transactionOperation "c/e" =
      some DocumentChangeType.modified :=
  ⟨rfl, rfl, rfl, rfl⟩

/-- C3 amended: staging `set(p, A)` then `set(p, B)` leaves exactly one
staged entry for `p` whose value is `B`, and whose operation kind is
re-derived from the staged-or-current state at the time of the second call:
since the first `set` always stages a present value, the second `set`
records `modified` regardless of the original pre-`A` state. -/
theorem set_set_single_entry_amended (t : MockTransaction)
    (ref : MockDocumentReference) (A B : DocumentData)
    (hnd : (mapKeys t.transactionData).Nodup)
    (hno : (mapKeys t.transactionOperation).Nodup) :
    (mapKeys ((t.set ref A none).set ref B none).transactionData).count
      ref.path = 1 ∧
    (mapKeys ((t.set ref A none).set ref B none).transactionOperation).count
      ref.path = 1 ∧
    lookupKey ((t.set ref A none).set ref B none).transactionData ref.path =
      some (some B) ∧
    lookupKey ((t.set ref A none).set ref B none).transactionOperation
      ref.path = some DocumentChangeType.modified := by
  have hstaged : (t.set ref A none).stagedValue ref.path = some A := by
    simp [MockTransaction.stagedValue, MockTransaction.set,
      MockDocumentReference.setInTransaction, lookupKey_setKey]
  refine ⟨?_, ?_, ?_, ?_⟩
  · simp only [MockTransaction.set]
    exact count_setKey_self _ _ _ (nodup_setKey _ _ _ hnd)
  · simp only [MockTransaction.set]
    exact count_setKey_self _ _ _ (nodup_setKey _ _ _ hno)
  · simp [MockTransaction.set, MockDocumentReference.setInTransaction,
      lookupKey_setKey]
  · exact set_opkind_modified_of_staged _ ref B none A hstaged

/-- Witness for the amended C3 at concrete inputs. -/
theorem set_set_single_entry_amended_witness :
    (mapKeys ((MockTransaction.init.set ⟨"c/e", none⟩ [("x", 1)] none).set
        ⟨"c/e", none⟩ [("y", 2)] none).transactionData).count "c/e" = 1 ∧
    (mapKeys ((MockTransaction.init.set ⟨"c/e", none⟩ [("x", 1)] none).set
        ⟨"c/e", none⟩ [("y", 2)] none).transactionOperation).count
      "c/e" = 1 ∧
    lookupKey ((MockTransaction.init.set ⟨"c/e", none⟩ [("x", 1)] none).set
        ⟨"c/e", none⟩ [("y", 2)] none).transactionData "c/e" =
      some (some [("y", 2)]) ∧
    lookupKey ((MockTransaction.init.set ⟨"c/e", none⟩ [("x", 1)] none).set
        ⟨"c/e", none⟩ [("y", 2)] none).transactionOperation "c/e" =
      some DocumentChangeType.modified :=
  set_set_single_entry_amended MockTransaction.init ⟨"c/e", none⟩
    [("x", 1)] [("y", 2)] (by decide) (by decide)

/-- C4: with current data `{a:0, c:3}` and nothing staged for the path,
`set(ref, {a:1, b:2})` with `merge = true` stages the shallow top-level
merge (payload keys win; in JS key order this is `{a:1, c:3, b:2}`, equal
as a map to `{a:1, b:2, c:3}`); with `merge` absent or `false` it stages
exactly the payload `{a:1, b:2}`. -/
theorem set_merge_vs_replace (t : MockTransaction)
    (ref : MockDocumentReference)
    (hstaged : t.stagedValue ref.path = none)
    (hdata : ref.data = some [("a", 0), ("c", 3)]) :
    lookupKey (t.set ref [("a", 1), ("b", 2)]
        (some ⟨true⟩)).transactionData ref.path =
      some (some [("a", 1), ("c", 3), ("b", 2)]) ∧
    lookupKey (t.set ref [("a", 1), ("b", 2)] none).transactionData
      ref.path = some (some [("a", 1), ("b", 2)]) ∧
    lookupKey (t.set ref [("a", 1), ("b", 2)]
        (some ⟨false⟩)).transactionData ref.path =
      some (some [("a", 1), ("b", 2)]) := by
  refine ⟨?_, ?_, ?_⟩
  · simp only [MockTransaction.set, hstaged, hdata]
    rw [lookupKey_setKey, if_pos rfl]
    rfl
  · simp only [MockTransaction.set, hstaged]
    rw [lookupKey_setKey, if_pos rfl]
    rfl
  · simp only [MockTransaction.set, hstaged]
    rw [lookupKey_setKey, if_pos rfl]
    rfl

/-- Witness for C4 at concrete inputs. -/
theorem set_merge_vs_replace_witness :
    lookupKey (MockTransaction.init.set
        ⟨"c/d", some [("a", 0), ("c", 3)]⟩ [("a", 1), ("b", 2)]
        (some ⟨true⟩)).transactionData "c/d" =
      some (some [("a", 1), ("c", 3), ("b", 2)]) ∧
    lookupKey (MockTransaction.init.set
        ⟨"c/d", some [("a", 0), ("c", 3)]⟩ [("a", 1), ("b", 2)]
        none).transactionData "c/d" = some (some [("a", 1), ("b", 2)]) :=
  ⟨(set_merge_vs_replace MockTransaction.init
      ⟨"c/d", some [("a", 0), ("c", 3)]⟩ rfl rfl).1,
    (set_merge_vs_replace MockTransaction.init
      ⟨"c/d", some [("a", 0), ("c", 3)]⟩ rfl rfl).2.1⟩

/-- Grouping stops at the first failing per-document commit and returns
that error, whatever was already grouped. -/
theorem commitCollect_append_error {E : Type} (env : CommitEnv E)
    (td : JsMap (Option DocumentData)) (p : String) (o : DocumentChangeType)
    (l2 : List (String × DocumentChangeType)) (e : E)
    (hfail : env p o ((lookupKey td p).bind id) = .error e) :
    ∀ (l1 : List (String × DocumentChangeType))
      (acc : JsMap (List MockDocumentChange)),
      (∀ q ∈ l1, ∃ ch, env q.1 q.2 ((lookupKey td q.1).bind id) = .ok ch) →
      MockTransaction.commitCollect env td (l1 ++ (p, o) :: l2) acc =
        .error e := by
  intro l1
  induction l1 with
  | nil =>
    intro acc _
    simp only [List.nil_append, MockTransaction.commitCollect, hfail]
  | cons q rest ih =>
    intro acc hok
    obtain ⟨qp, qo⟩ := q
    obtain ⟨ch, hch⟩ := hok (qp, qo) (List.mem_cons_self _ _)
    simp only [List.cons_append, MockTransaction.commitCollect, hch]
    exact ih _ (fun r hr => hok r (List.mem_cons_of_mem _ hr))

/-- When every per-document commit succeeds, grouping succeeds. -/
theorem commitCollect_ok_exists {E : Type} (env : CommitEnv E)
    (td : JsMap (Option DocumentData)) :
    ∀ (l : List (String × DocumentChangeType))
      (acc : JsMap (List MockDocumentChange)),
      (∀ q ∈ l, ∃ ch, env q.1 q.2 ((lookupKey td q.1).bind id) = .ok ch) →
      ∃ cc, MockTransaction.commitCollect env td l acc = .ok cc := by
  intro l
  induction l with
  | nil => intro acc _; exact ⟨acc, rfl⟩
  | cons q rest ih =>
    intro acc hok
    obtain ⟨qp, qo⟩ := q
    obtain ⟨ch, hch⟩ := hok (qp, qo) (List.mem_cons_self _ _)
    simp only [MockTransaction.commitCollect, hch]
    exact ih _ (fun r hr => hok r (List.mem_cons_of_mem _ hr))

/-- C6: when the per-document commit of some staged path raises an error
(all earlier staged paths succeeding), `commit` fires no notification,
invokes `rollback` exactly once, and re-raises the same error unchanged;
when every per-document commit succeeds, `rollback` is not invoked and
`commit` resolves with no error. -/
theorem commit_failure_rollback {E : Type} (env : CommitEnv E)
    (t : MockTransaction) :
    (∀ (l1 : List (String × DocumentChangeType)) (p : String)
      (o : DocumentChangeType) (l2 : List (String × DocumentChangeType))
      (e : E),
      t.transactionOperation = l1 ++ (p, o) :: l2 →
      (∀ q ∈ l1, ∃ ch, env q.1 q.2 (t.stagedValue q.1) = .ok ch) →
      env p o (t.stagedValue p) = .error e →
      t.commit env = ⟨[], 1, some e⟩) ∧
    ((∀ q ∈ t.transactionOperation, ∃ ch,
        env q.1 q.2 (t.stagedValue q.1) = .ok ch) →
      (t.commit env).rollbackCount = 0 ∧ (t.commit env).error = none) := by
  constructor
  · intro l1 p o l2 e hsplit hok hfail
    unfold MockTransaction.commit
    rw [hsplit,
      commitCollect_append_error env t.transactionData p o l2 e hfail l1 []
        hok]
  · intro hok
    obtain ⟨cc, hcc⟩ := commitCollect_ok_exists env t.transactionData
      t.transactionOperation [] hok
    unfold MockTransaction.commit
    rw [hcc]
    exact ⟨rfl, rfl⟩

/-- Witness for C6: a failing per-document commit yields one rollback and
the same error; an all-success environment yields zero rollbacks. -/
theorem commit_failure_rollback_witness :
    (⟨[], [("a/x", .added)], true⟩ : MockTransaction).commit
        (fun _ _ _ => (.error 7 : Except Nat MockDocumentChange)) =
      ⟨[], 1, some 7⟩ ∧
    ((⟨[], [("a/x", .added)], true⟩ : MockTransaction).commit
        (fun p _ v => (.ok ⟨.added, ⟨p, v⟩, 0, 0⟩ :
          Except Nat MockDocumentChange))).rollbackCount = 0 :=
  ⟨(commit_failure_rollback (fun _ _ _ => .error 7)
      ⟨[], [("a/x", .added)], true⟩).1 [] "a/x" .added [] 7 rfl
      (fun q hq => absurd hq (List.not_mem_nil q)) rfl,
    ((commit_failure_rollback (fun p _ v => .ok ⟨.added, ⟨p, v⟩, 0, 0⟩)
      ⟨[], [("a/x", .added)], true⟩).2 (fun _ _ => ⟨_, rfl⟩)).1⟩

/-- C1: with writes staged in order to `p1` (collection `C1`), `p2`
(collection `C2`), `p3` (collection `C1`), where the collection path is the
string preceding the final slash, a successful `commit` processes the paths
in first-insertion order and fires, in order: the per-document events for
`p1` then `p3`, the batched notification of `C1` with `[p1-change,
p3-change]`, the per-document event for `p2`, and the batched notification
of `C2` with `[p2-change]` — with no rollback and no error. -/
theorem commit_ordering_per_collection {E : Type} (env : CommitEnv E)
    (t : MockTransaction) (p1 p2 p3 : String)
    (o1 o2 o3 : DocumentChangeType) (ch1 ch2 ch3 : MockDocumentChange)
    (hops : t.transactionOperation = [(p1, o1), (p2, o2), (p3, o3)])
    (hc13 : collectionPathOf p3 = collectionPathOf p1)
    (hc12 : collectionPathOf p2 ≠ collectionPathOf p1)
    (h1 : env p1 o1 (t.stagedValue p1) = .ok ch1)
    (h2 : env p2 o2 (t.stagedValue p2) = .ok ch2)
    (h3 : env p3 o3 (t.stagedValue p3) = .ok ch3) :
    t.commit env =
      ⟨[.docChange ch1.doc.refPath ch1.type ch1.oldIndex false,
        .docChange ch3.doc.refPath ch3.type ch3.oldIndex false,
        .batchChange (collectionPathOf p1) [ch1, ch3],
        .docChange ch2.doc.refPath ch2.type ch2.oldIndex false,
        .batchChange (collectionPathOf p2) [ch2]],
       0, none⟩ := by
  have hc21 : collectionPathOf p1 ≠ collectionPathOf p2 := Ne.symm hc12
  simp only [MockTransaction.stagedValue] at h1 h2 h3
  unfold MockTransaction.commit
  rw [hops]
  simp only [MockTransaction.commitCollect, h1, h2, h3, hc13]
  simp [MockTransaction.commitFire, lookupKey, hasKey, setKey, hc12, hc21]

/-- Witness for C1: paths `a/x`, `b/y`, `a/z` under collections `a`, `b`,
`a`, with an environment echoing each staged operation. -/
theorem commit_ordering_per_collection_witness :
    (⟨[], [("a/x", .added), ("b/y", .modified), ("a/z", .removed)], true⟩ :
        MockTransaction).commit
      (fun p o v =>
        (.ok ⟨o, ⟨p, v⟩, 0, 0⟩ : Except Nat MockDocumentChange)) =
      ⟨[.docChange "a/x" .added 0 false,
        .docChange "a/z" .removed 0 false,
        .batchChange "a" [⟨.added, ⟨"a/x", none⟩, 0, 0⟩,
          ⟨.removed, ⟨"a/z", none⟩, 0, 0⟩],
        .docChange "b/y" .modified 0 false,
        .batchChange "b" [⟨.modified, ⟨"b/y", none⟩, 0, 0⟩]],
       0, none⟩ :=
  commit_ordering_per_collection
    (fun p o v => .ok ⟨o, ⟨p, v⟩, 0, 0⟩)
    ⟨[], [("a/x", .added), ("b/y", .modified), ("a/z", .removed)], true⟩
    "a/x" "b/y" "a/z" .added .modified .removed
    ⟨.added, ⟨"a/x", none⟩, 0, 0⟩ ⟨.modified, ⟨"b/y", none⟩, 0, 0⟩
    ⟨.removed, ⟨"a/z", none⟩, 0, 0⟩
    rfl (by decide) (by decide) rfl rfl rfl

end TsMockFirebase
